import Mathlib

/-!
Verification of the note/key/commitment algebra of the sapling-crypto
primitive layer (`src/primitives/mod.rs`).

The Rust code is generic over a `JubjubEngine`; the elliptic-curve group,
the hash primitives and the personalization constants live in sibling
modules of the crate that are consumed here only through their contract
(spec section 6).  We therefore embed the primitives over an abstract
parameter structure `JubjubParams` bundling the collaborator operations
together with the contract the spec states for them (fixed 32-byte point
encodings, 32-byte digests, group laws, and the scalar-field bound that
makes the masked 251-bit digests decodable).
-/

/-- The five named fixed generators of the parameter set
(`FixedGenerators` in the `jubjub` module; spec section 3). -/
inductive FixedGenerators : Type where
  | ValueCommitmentValue : FixedGenerators
  | ValueCommitmentRandomness : FixedGenerators
  | ProofGenerationKey : FixedGenerators
  | NoteCommitmentRandomness : FixedGenerators
  | NullifierPosition : FixedGenerators
deriving DecidableEq

/-- Domain-separation tag of the Pedersen hash (`Personalization` in the
`pedersen_hash` module, which is not part of the core source; modelled from
the spec: a domain tag dedicated to note commitments, plus the Merkle-tree
tags used only by external callers). -/
inductive Personalization : Type where
  | NoteCommitment : Personalization
  | MerkleTree : Nat → Personalization
deriving DecidableEq

/-- Modelled from the spec: the fixed 8-byte personalization tag dedicated
to the ivk derivation (`constants::CRH_IVK_PERSONALIZATION`, the constant
lives outside the core source).  The bytes are the ASCII of "Zcashivk". -/
def CRH_IVK_PERSONALIZATION : List Nat := [90, 99, 97, 115, 104, 105, 118, 107]

/-- Modelled from the spec: the fixed 8-byte personalization tag dedicated
to the nullifier PRF (`constants::PRF_NR_PERSONALIZATION`, outside the core
source).  The bytes are the ASCII of "Zcash_nf". -/
def PRF_NR_PERSONALIZATION : List Nat := [90, 99, 97, 115, 104, 95, 110, 102]

/-- Modelled from the spec: the fixed personalization tag of the
key-diversification hash-to-curve
(`constants::KEY_DIVERSIFICATION_PERSONALIZATION`, outside the core
source).  The bytes are the ASCII of "Zcash_gd". -/
def KEY_DIVERSIFICATION_PERSONALIZATION : List Nat := [90, 99, 97, 115, 104, 95, 103, 100]

/-- Big-endian value of a byte buffer, as read by `PrimeFieldRepr.read_be`. -/
def beVal (bytes : List Nat) : Nat :=
  bytes.foldl (fun acc b => acc * 256 + b) 0

/-- Modelled from the spec: the abstract contract of the external
collaborators (spec section 6) consumed by the core — the curve/field
parameter provider (`jubjub` module: named generators, point addition,
scalar multiplication, fixed-width 32-byte canonical point encoding, the
scalar field of order `rs` with its conversion from unsigned integers),
the hash-to-curve primitive (`group_hash`), the Pedersen bit-string hash
(`pedersen_hash`), and the personalized 32-byte digest hash (`Blake2s`).
Points are an abstract type `Point`, scalars `Fs`, base-field elements
`Fr`; bytes are `Nat` below 256.  The `Prop` fields are the contract the
spec states: encodings are exactly 32 bytes, digests exactly 32 bytes,
group addition is commutative and associative, scalar multiplication of a
fixed point is additive in the scalar, the integer-to-scalar conversion is
additive, and the scalar field has at least 252 bits so that 251-bit
integers are valid scalars. -/
structure JubjubParams (Point Fs Fr : Type) where
  generator : FixedGenerators → Point
  add : Point → Point → Point
  mul : Point → Fs → Point
  fsAdd : Fs → Fs → Fs
  fsOfNat : Nat → Fs
  write : Point → List Nat
  intoXY : Point → Fr × Fr
  groupHash : List Nat → List Nat → Option Point
  pedersenHash : Personalization → List Bool → Point
  blake2s : List Nat → List Nat → List Nat
  rs : Nat
  write_len : ∀ p, (write p).length = 32
  write_bytes : ∀ p, ∀ b ∈ write p, b < 256
  blake2s_len : ∀ t m, (blake2s t m).length = 32
  blake2s_bytes : ∀ t m, ∀ b ∈ blake2s t m, b < 256
  rs_big : 2 ^ 251 ≤ rs
  add_comm : ∀ a b, add a b = add b a
  add_assoc : ∀ a b c, add (add a b) c = add a (add b c)
  mul_fsAdd : ∀ g a b, add (mul g a) (mul g b) = mul g (fsAdd a b)
  fsOfNat_add : ∀ a b, fsOfNat (a + b) = fsAdd (fsOfNat a) (fsOfNat b)

/-- Modelled from the spec: `read_be` on the 32-byte buffer followed by
`Fs::from_repr` — decode the buffer as a big-endian integer and accept it
exactly when it is a canonical representative, i.e. below the scalar-field
order `rs` (spec sections 4.2 and 9: masking guarantees a 251-bit bound,
canonicity holds when the modulus exceeds that bound). -/
def fsFromReprBE {Point Fs Fr : Type} (P : JubjubParams Point Fs Fr)
    (bytes : List Nat) : Option Fs :=
  if beVal bytes < P.rs then some (P.fsOfNat (beVal bytes)) else none

/-- Bits of one byte, most-significant first, exactly as the source
expands each byte: `(0..8).rev().map(|i| ((byte >> i) & 1) == 1)`. -/
def byteToBitsMSB (b : Nat) : List Bool :=
  (List.range 8).reverse.map (fun i => (b >>> i) &&& 1 == 1)

/-- Bit sequence of a byte buffer, byte-by-byte in buffer order,
most-significant bit first within each byte (the `flat_map` of the
source). -/
def bytesToBitsMSB (bytes : List Nat) : List Bool :=
  (bytes.map byteToBitsMSB).flatten

/-- A `u64` written in big-endian byte order
(`write_u64::<BigEndian>`). -/
def u64ToBytesBE (v : Nat) : List Nat :=
  (List.range 8).map (fun i => (v >>> (8 * (7 - i))) % 256)

/-- Mask the first byte of a digest with `0b0000_0111`, dropping the top
five bits (`h[0] &= 0b0000_0111` in the source). -/
def maskFirstByte : List Nat → List Nat
  | [] => []
  | b :: rest => (b &&& 7) :: rest

variable {Point Fs Fr : Type}

/-- `ValueCommitment` of the source: a 64-bit value and a randomness
scalar. -/
structure ValueCommitment (Fs : Type) where
  value : Nat
  randomness : Fs

/-- `ValueCommitment::cm`: the commitment point
`G_value · value + G_vc_rand · randomness`, computed exactly as the
source: the `ValueCommitmentValue` generator times the value, added to
the `ValueCommitmentRandomness` generator times the randomness. -/
def ValueCommitment.cm (self : ValueCommitment Fs)
    (params : JubjubParams Point Fs Fr) : Point :=
  params.add
    (params.mul (params.generator FixedGenerators.ValueCommitmentValue)
      (params.fsOfNat self.value))
    (params.mul (params.generator FixedGenerators.ValueCommitmentRandomness)
      self.randomness)

/-- `ProofGenerationKey` of the source. -/
structure ProofGenerationKey (Point Fs : Type) where
  ak : Point
  rsk : Fs

/-- `ViewingKey` of the source. -/
structure ViewingKey (Point : Type) where
  ak : Point
  rk : Point

/-- `ProofGenerationKey::into_viewing_key`: `ak` passed through, `rk =
generator(ProofGenerationKey) · rsk`. -/
def ProofGenerationKey.into_viewing_key (self : ProofGenerationKey Point Fs)
    (params : JubjubParams Point Fs Fr) : ViewingKey Point :=
  { ak := self.ak,
    rk := params.mul (params.generator FixedGenerators.ProofGenerationKey) self.rsk }

/-- `ViewingKey::ivk`: write `ak` then `rk` into a 64-byte buffer, hash
with Blake2s personalized by `CRH_IVK_PERSONALIZATION`, drop the first
five bits of the digest, decode big-endian as a scalar.  The Rust
`expect("should be a valid scalar")` panic is embedded as the
`Except.error` branch. -/
def ViewingKey.ivk (self : ViewingKey Point)
    (params : JubjubParams Point Fs Fr) : Except String Fs :=
  let preimage := params.write self.ak ++ params.write self.rk
  let h := maskFirstByte (params.blake2s CRH_IVK_PERSONALIZATION preimage)
  match fsFromReprBE params h with
  | none => Except.error "should be a valid scalar"
  | some e => Except.ok e

/-- `Diversifier` of the source: 11 raw bytes. -/
structure Diversifier where
  bytes : List Nat
  len11 : bytes.length = 11

/-- `Diversifier::g_d`: hash-to-curve of the 11 diversifier bytes under
the key-diversification personalization; may be undefined. -/
def Diversifier.g_d (self : Diversifier)
    (params : JubjubParams Point Fs Fr) : Option Point :=
  params.groupHash self.bytes KEY_DIVERSIFICATION_PERSONALIZATION

/-- `PaymentAddress` of the source. -/
structure PaymentAddress (Point : Type) where
  pk_d : Point
  diversifier : Diversifier

/-- `ViewingKey::into_payment_address`: absent exactly when `g_d` is
undefined; otherwise the address `{pk_d = g_d · ivk, diversifier}`.  The
outer `Except` layer records the panic that `ivk` could raise inside the
`map` closure; the closure is not entered when `g_d` is undefined. -/
def ViewingKey.into_payment_address (self : ViewingKey Point)
    (diversifier : Diversifier) (params : JubjubParams Point Fs Fr) :
    Except String (Option (PaymentAddress Point)) :=
  match diversifier.g_d params with
  | none => Except.ok none
  | some g_d =>
    match self.ivk params with
    | Except.error e => Except.error e
    | Except.ok i =>
      Except.ok (some { pk_d := params.mul g_d i, diversifier := diversifier })

/-- `Note` of the source: value, diversified base, public key,
commitment randomness. -/
structure Note (Point Fs : Type) where
  value : Nat
  g_d : Point
  pk_d : Point
  r : Fs

/-- `PaymentAddress::g_d`: recompute the diversified base from the
stored diversifier. -/
def PaymentAddress.g_d (self : PaymentAddress Point)
    (params : JubjubParams Point Fs Fr) : Option Point :=
  self.diversifier.g_d params

/-- `PaymentAddress::create_note`: recompute `g_d` (absent under the same
condition as `Diversifier::g_d`) and bundle it with the stored `pk_d`,
the value and the randomness into a Note. -/
def PaymentAddress.create_note (self : PaymentAddress Point)
    (value : Nat) (randomness : Fs) (params : JubjubParams Point Fs Fr) :
    Option (Note Point Fs) :=
  (self.g_d params).map (fun g_d =>
    { value := value, r := randomness, g_d := g_d, pk_d := self.pk_d })

/-- The flat byte buffer of note contents built by
`Note::cm_full_point`: the value as 8 big-endian bytes, then the 32-byte
encoding of `g_d`, then the 32-byte encoding of `pk_d`. -/
def Note.note_contents (self : Note Point Fs)
    (params : JubjubParams Point Fs Fr) : List Nat :=
  u64ToBytesBE self.value ++ params.write self.g_d ++ params.write self.pk_d

/-- `Note::cm_full_point`: serialize the note contents, assert the buffer
is 72 bytes, expand it bit-by-bit most-significant first, Pedersen-hash
the bits under the note-commitment personalization, and add
`generator(NoteCommitmentRandomness) · r`.  The `assert_eq!` is embedded
as the `Except.error` branch. -/
def Note.cm_full_point (self : Note Point Fs)
    (params : JubjubParams Point Fs Fr) : Except String Point :=
  let note_contents := self.note_contents params
  if note_contents.length = 32 + 32 + 8 then
    Except.ok (params.add
      (params.mul (params.generator FixedGenerators.NoteCommitmentRandomness) self.r)
      (params.pedersenHash Personalization.NoteCommitment
        (bytesToBitsMSB note_contents)))
  else
    Except.error "assertion failed"

/-- `Note::nf`: add `generator(NullifierPosition) · position` to the full
commitment point, write `rk` then that sum into a 64-byte buffer, hash
with Blake2s personalized by `PRF_NR_PERSONALIZATION`, drop the first
five bits, decode big-endian as the scalar `nr`, and return `ak · nr`.
The `expect` panic is embedded as the `Except.error` branch. -/
def Note.nf (self : Note Point Fs) (viewing_key : ViewingKey Point)
    (position : Nat) (params : JubjubParams Point Fs Fr) :
    Except String Point :=
  match self.cm_full_point params with
  | Except.error e => Except.error e
  | Except.ok cmfp =>
    let cm_plus_position :=
      params.add cmfp
        (params.mul (params.generator FixedGenerators.NullifierPosition)
          (params.fsOfNat position))
    let nr_preimage := params.write viewing_key.rk ++ params.write cm_plus_position
    let h := maskFirstByte (params.blake2s PRF_NR_PERSONALIZATION nr_preimage)
    match fsFromReprBE params h with
    | none => Except.error "should be a valid scalar"
    | some nr => Except.ok (params.mul viewing_key.ak nr)

/-- `Note::cm`: the base-field x-coordinate of the full commitment
point. -/
def Note.cm (self : Note Point Fs)
    (params : JubjubParams Point Fs Fr) : Except String Fr :=
  match self.cm_full_point params with
  | Except.error e => Except.error e
  | Except.ok p => Except.ok (params.intoXY p).1

/-!
Spec-side definitions.

The following definitions are written from the wording of the spec
(sections 4.1, 4.2, 4.5, 4.6), independently of the Rust control flow, to
state the refinement claims: byte-level big-endian serialization via
division, bit expansion via `Nat.testBit`, and the commitment, ivk and
nullifier formulas as the spec phrases them.
-/

/-- The value as 8 bytes big-endian, written from the spec with explicit
division by powers of two. -/
def specU64BE (v : Nat) : List Nat :=
  [v / 2 ^ 56 % 256, v / 2 ^ 48 % 256, v / 2 ^ 40 % 256, v / 2 ^ 32 % 256,
   v / 2 ^ 24 % 256, v / 2 ^ 16 % 256, v / 2 ^ 8 % 256, v % 256]

/-- The eight bits of a byte, most-significant bit first, written from
the spec via `Nat.testBit`. -/
def specByteBitsMSB (b : Nat) : List Bool :=
  [b.testBit 7, b.testBit 6, b.testBit 5, b.testBit 4,
   b.testBit 3, b.testBit 2, b.testBit 1, b.testBit 0]

/-- The bit sequence of a byte buffer, byte-by-byte in buffer order,
most-significant bit first within each byte (spec section 4.5 step 2). -/
def specBytesToBits (bytes : List Nat) : List Bool :=
  (bytes.map specByteBitsMSB).flatten

/-- The note-contents buffer of spec section 4.5 step 1: the value as 8
bytes big-endian, then the fixed 32-byte encoding of `g_d`, then the
fixed 32-byte encoding of `pk_d`. -/
def specNoteBuffer (P : JubjubParams Point Fs Fr) (n : Note Point Fs) : List Nat :=
  specU64BE n.value ++ P.write n.g_d ++ P.write n.pk_d

/-- The full note-commitment point of spec section 4.5:
`cm_point = r · G_note_rand + H` where `H` is the Pedersen hash of the
expanded note-contents bits under the note-commitment domain tag. -/
def specCmFullPoint (P : JubjubParams Point Fs Fr) (n : Note Point Fs) : Point :=
  P.add
    (P.mul (P.generator FixedGenerators.NoteCommitmentRandomness) n.r)
    (P.pedersenHash Personalization.NoteCommitment
      (specBytesToBits (specNoteBuffer P n)))

/-- The value-commitment formula of spec section 4.1:
`cm = value · G_value + randomness · G_vc_rand`. -/
def specValueCommit (P : JubjubParams Point Fs Fr) (value : Nat) (randomness : Fs) : Point :=
  P.add
    (P.mul (P.generator FixedGenerators.ValueCommitmentValue) (P.fsOfNat value))
    (P.mul (P.generator FixedGenerators.ValueCommitmentRandomness) randomness)

/-- The ivk derivation of spec section 4.2: serialize `ak` then `rk`,
hash under the dedicated tag, clear the top five bits of the first digest
byte, decode big-endian as a scalar (`none` models decode failure). -/
def specIvk (P : JubjubParams Point Fs Fr) (ak rk : Point) : Option Fs :=
  fsFromReprBE P
    (maskFirstByte (P.blake2s CRH_IVK_PERSONALIZATION (P.write ak ++ P.write rk)))

/-- The position-blinded commitment point of spec section 4.6 step 1:
`cm_plus_position = cm_full_point + position · G_null_pos`, computed in
the group on the full point. -/
def specCmPlusPosition (P : JubjubParams Point Fs Fr) (n : Note Point Fs)
    (position : Nat) : Point :=
  P.add (specCmFullPoint P n)
    (P.mul (P.generator FixedGenerators.NullifierPosition) (P.fsOfNat position))

/-- The nullifier scalar of spec section 4.6 step 2: serialize `rk` then
`cm_plus_position`, hash under the PRF tag, mask the top five bits of the
first digest byte, decode big-endian as a scalar. -/
def specNr (P : JubjubParams Point Fs Fr) (rk cpp : Point) : Option Fs :=
  fsFromReprBE P
    (maskFirstByte (P.blake2s PRF_NR_PERSONALIZATION (P.write rk ++ P.write cpp)))

/-!
Concrete instantiation of the collaborator contract, over the integers,
used to exercise the theorems on concrete inputs.
-/

/-- A concrete parameter set over the integers: the group is `(ℤ, +)`,
every generator is `1`, scalars are integers, point encodings are 32 zero
bytes, digests are 32 one bytes, hash-to-curve always returns `1`, the
Pedersen hash returns `5`, and the scalar-field order is `2 ^ 251`. -/
def testParams : JubjubParams Int Int Int where
  generator := fun _ => 1
  add := fun a b => a + b
  mul := fun g a => g * a
  fsAdd := fun a b => a + b
  fsOfNat := fun n => (n : Int)
  write := fun _ => List.replicate 32 0
  intoXY := fun p => (p, 0)
  groupHash := fun _ _ => some 1
  pedersenHash := fun _ _ => 5
  blake2s := fun _ _ => List.replicate 32 1
  rs := 2 ^ 251
  write_len := fun _ => by simp
  write_bytes := fun _ b hb => by
    have := List.eq_of_mem_replicate hb
    omega
  blake2s_len := fun _ _ => by simp
  blake2s_bytes := fun _ _ b hb => by
    have := List.eq_of_mem_replicate hb
    omega
  rs_big := le_refl _
  add_comm := fun a b => Int.add_comm a b
  add_assoc := fun a b c => Int.add_assoc a b c
  mul_fsAdd := fun g a b => (mul_add g a b).symm
  fsOfNat_add := fun a b => by push_cast; ring

/-- A concrete 11-byte diversifier. -/
def testDiversifier : Diversifier :=
  { bytes := [0, 1, 2, 3, 4, 5, 6, 7, 8, 9, 10], len11 := rfl }

/-- A concrete viewing key over the test parameters. -/
def testViewingKey : ViewingKey Int := { ak := 2, rk := 3 }

/-- A second concrete viewing key with the same `(ak, rk)` fields. -/
def testViewingKey2 : ViewingKey Int := { ak := 2, rk := 3 }

/-- A concrete note over the test parameters. -/
def testNote : Note Int Int := { value := 0, g_d := 1, pk_d := 1, r := 3 }

/-- A concrete payment address over the test parameters. -/
def testAddress : PaymentAddress Int :=
  { pk_d := 7, diversifier := testDiversifier }

/-- The concrete note that `create_note 5 9` produces from
`testAddress`. -/
def testCreatedNote : Note Int Int := { value := 5, g_d := 1, pk_d := 7, r := 9 }

/-!
Helper lemmas: source-level byte and bit manipulation agrees with the
spec-level formulation, and the masked 32-byte digest always decodes.
-/

theorem byteToBitsMSB_eq_spec (b : Nat) : byteToBitsMSB b = specByteBitsMSB b := by
  simp [byteToBitsMSB, specByteBitsMSB, List.range_succ, Nat.testBit,
    Nat.and_one_is_mod, Nat.shiftRight_eq_div_pow, Nat.beq_eq_true_eq]

theorem bytesToBitsMSB_eq_spec (bytes : List Nat) :
    bytesToBitsMSB bytes = specBytesToBits bytes := by
  unfold bytesToBitsMSB specBytesToBits
  induction bytes with
  | nil => rfl
  | cons b t ih => simp_all [byteToBitsMSB_eq_spec]

theorem u64ToBytesBE_eq_spec (v : Nat) : u64ToBytesBE v = specU64BE v := by
  simp [u64ToBytesBE, specU64BE, List.range_succ, Nat.shiftRight_eq_div_pow]

theorem u64ToBytesBE_length (v : Nat) : (u64ToBytesBE v).length = 8 := by
  simp [u64ToBytesBE]

theorem beVal_cons (b : Nat) (t : List Nat) :
    beVal (b :: t) = b * 256 ^ t.length + beVal t := by
  have key : ∀ (l : List Nat) (a : Nat),
      l.foldl (fun acc x => acc * 256 + x) a = a * 256 ^ l.length + beVal l := by
    intro l
    induction l with
    | nil => intro a; simp [beVal]
    | cons x s ih =>
      intro a
      simp only [List.foldl_cons, List.length_cons, beVal, Nat.zero_mul, Nat.zero_add]
      rw [ih (a * 256 + x), ih x]
      ring
  simpa [beVal] using key t b

theorem beVal_lt_of_bytes (l : List Nat) (h : ∀ b ∈ l, b < 256) :
    beVal l < 256 ^ l.length := by
  induction l with
  | nil => simp [beVal]
  | cons b t ih =>
    have hb : b < 256 := h b (by simp)
    have ht : beVal t < 256 ^ t.length := ih (fun x hx => h x (by simp [hx]))
    calc beVal (b :: t) = b * 256 ^ t.length + beVal t := beVal_cons b t
      _ < b * 256 ^ t.length + 256 ^ t.length := by omega
      _ = (b + 1) * 256 ^ t.length := by ring
      _ ≤ 256 * 256 ^ t.length := by
          exact Nat.mul_le_mul_right _ (by omega)
      _ = 256 ^ (b :: t).length := by
          simp [List.length_cons, pow_succ]; ring

theorem beVal_maskFirstByte_lt (h : List Nat) (hlen : h.length = 32)
    (hb : ∀ b ∈ h, b < 256) : beVal (maskFirstByte h) < 2 ^ 251 := by
  match h, hlen with
  | b :: t, hlen =>
    have ht : t.length = 31 := by simpa using hlen
    have hmask : b &&& 7 ≤ 7 := Nat.and_le_right
    have htv : beVal t < 256 ^ 31 := by
      have := beVal_lt_of_bytes t (fun x hx => hb x (by simp [hx]))
      simpa [ht] using this
    have : beVal (maskFirstByte (b :: t)) = (b &&& 7) * 256 ^ 31 + beVal t := by
      simp [maskFirstByte, beVal_cons, ht]
    rw [this]
    have h8 : (8 : Nat) * 256 ^ 31 = 2 ^ 251 := by norm_num
    calc (b &&& 7) * 256 ^ 31 + beVal t
        ≤ 7 * 256 ^ 31 + beVal t := by
          exact Nat.add_le_add_right (Nat.mul_le_mul_right _ hmask) _
      _ < 7 * 256 ^ 31 + 256 ^ 31 := by omega
      _ = 8 * 256 ^ 31 := by ring
      _ = 2 ^ 251 := h8

theorem fsFromReprBE_mask_blake2s_isSome (P : JubjubParams Point Fs Fr)
    (t m : List Nat) :
    ∃ e, fsFromReprBE P (maskFirstByte (P.blake2s t m)) = some e := by
  have hlt : beVal (maskFirstByte (P.blake2s t m)) < 2 ^ 251 :=
    beVal_maskFirstByte_lt _ (P.blake2s_len t m) (P.blake2s_bytes t m)
  have hrs : beVal (maskFirstByte (P.blake2s t m)) < P.rs :=
    lt_of_lt_of_le hlt P.rs_big
  refine ⟨P.fsOfNat (beVal (maskFirstByte (P.blake2s t m))), ?_⟩
  unfold fsFromReprBE
  rw [if_pos hrs]

theorem note_contents_length (P : JubjubParams Point Fs Fr) (n : Note Point Fs) :
    (n.note_contents P).length = 72 := by
  simp [Note.note_contents, u64ToBytesBE_length, P.write_len]

theorem cm_full_point_eq_spec (P : JubjubParams Point Fs Fr) (n : Note Point Fs) :
    n.cm_full_point P = Except.ok (specCmFullPoint P n) := by
  have hlen : (n.note_contents P).length = 32 + 32 + 8 := by
    rw [note_contents_length]
  have hbuf : n.note_contents P = specNoteBuffer P n := by
    simp [Note.note_contents, specNoteBuffer, u64ToBytesBE_eq_spec]
  show (if (n.note_contents P).length = 32 + 32 + 8 then _ else _) = _
  rw [if_pos hlen, bytesToBitsMSB_eq_spec, hbuf]
  rfl

theorem ivk_eq_specIvk (P : JubjubParams Point Fs Fr) (vk : ViewingKey Point) :
    ∃ i, specIvk P vk.ak vk.rk = some i ∧ vk.ivk P = Except.ok i := by
  obtain ⟨i, hi⟩ := fsFromReprBE_mask_blake2s_isSome P CRH_IVK_PERSONALIZATION
    (P.write vk.ak ++ P.write vk.rk)
  refine ⟨i, hi, ?_⟩
  show (match fsFromReprBE P
      (maskFirstByte (P.blake2s CRH_IVK_PERSONALIZATION
        (P.write vk.ak ++ P.write vk.rk))) with
    | none => Except.error "should be a valid scalar"
    | some e => Except.ok e) = Except.ok i
  rw [hi]

theorem nf_eq_specNr (P : JubjubParams Point Fs Fr) (n : Note Point Fs)
    (vk : ViewingKey Point) (position : Nat) :
    ∃ nr, specNr P vk.rk (specCmPlusPosition P n position) = some nr ∧
      n.nf vk position P = Except.ok (P.mul vk.ak nr) := by
  obtain ⟨nr, hnr⟩ := fsFromReprBE_mask_blake2s_isSome P PRF_NR_PERSONALIZATION
    (P.write vk.rk ++ P.write (specCmPlusPosition P n position))
  refine ⟨nr, hnr, ?_⟩
  unfold Note.nf
  rw [cm_full_point_eq_spec]
  show (match fsFromReprBE P
      (maskFirstByte (P.blake2s PRF_NR_PERSONALIZATION
        (P.write vk.rk ++ P.write (specCmPlusPosition P n position)))) with
    | none => Except.error "should be a valid scalar"
    | some nr => Except.ok (P.mul vk.ak nr)) = Except.ok (P.mul vk.ak nr)
  rw [hnr]

/-!
The claims.
-/

/-- C1: for every note, `cm_full_point` serializes the note contents as
the value in 8 big-endian bytes, then the fixed 32-byte encoding of
`g_d`, then the fixed 32-byte encoding of `pk_d` (72 bytes in total, and
the assertion on that length passes), expands the buffer into bits
most-significant first within each byte, byte-by-byte in buffer order,
feeds the bits to the Pedersen hash under the note-commitment domain tag
to get a point `H`, and returns `r · G_note_rand + H`. -/
theorem claim_C1_cm_full_point (P : JubjubParams Point Fs Fr) (n : Note Point Fs) :
    (n.note_contents P).length = 72 ∧
    n.cm_full_point P = Except.ok (specCmFullPoint P n) :=
  ⟨note_contents_length P n, cm_full_point_eq_spec P n⟩

/-- C2: for every note, viewing key and position, `nf` equals `ak · nr`,
where `nr` decodes (big-endian, after masking the first digest byte with
`0b00000111`) the PRF-personalized digest of `rk` followed by
`cm_plus_position = cm_full_point + position · G_null_pos`, the blinding
being applied to the full commitment point in the group. -/
theorem claim_C2_nf (P : JubjubParams Point Fs Fr) (n : Note Point Fs)
    (vk : ViewingKey Point) (position : Nat) :
    ∃ nr, specNr P vk.rk (specCmPlusPosition P n position) = some nr ∧
      n.nf vk position P = Except.ok (P.mul vk.ak nr) :=
  nf_eq_specNr P n vk position

/-- C3: for every viewing key, `ivk` is derived by hashing the 32-byte
encodings of `ak` then `rk` under the dedicated 8-byte personalization
tag, clearing the top five bits of the first digest byte, and decoding
the digest big-endian as a scalar; the output is determined by the pair
`(ak, rk)` alone. -/
theorem claim_C3_ivk (P : JubjubParams Point Fs Fr) (vk : ViewingKey Point) :
    (∃ i, specIvk P vk.ak vk.rk = some i ∧ vk.ivk P = Except.ok i) ∧
    (∀ vk2 : ViewingKey Point, vk.ak = vk2.ak → vk.rk = vk2.rk →
      vk.ivk P = vk2.ivk P) := by
  refine ⟨ivk_eq_specIvk P vk, ?_⟩
  intro vk2 hak hrk
  unfold ViewingKey.ivk
  rw [hak, hrk]

/-- Witness for C3 at a concrete input: two syntactically distinct
viewing keys with equal `(ak, rk)` fields get the same ivk. -/
theorem claim_C3_ivk_witness :
    testViewingKey.ivk testParams = testViewingKey2.ivk testParams :=
  (claim_C3_ivk testParams testViewingKey).2 testViewingKey2 rfl rfl

/-- C4: in both the ivk derivation and the nullifier derivation, the
masked digest always decodes as a scalar: neither computation ever
reaches the decode-failure (panic) branch, for any input. -/
theorem claim_C4_decode_total (P : JubjubParams Point Fs Fr)
    (vk : ViewingKey Point) (n : Note Point Fs) (position : Nat) :
    (∃ i, vk.ivk P = Except.ok i) ∧
    (∃ q, n.nf vk position P = Except.ok q) := by
  obtain ⟨i, _, hi⟩ := ivk_eq_specIvk P vk
  obtain ⟨nr, _, hnr⟩ := nf_eq_specNr P n vk position
  exact ⟨⟨i, hi⟩, ⟨P.mul vk.ak nr, hnr⟩⟩

/-- C5: value commitments are homomorphic: the group sum of the
commitment to `(v1, r1)` and the commitment to `(v2, r2)` equals the
commitment to `(v1 + v2, r1 + r2)`. -/
theorem claim_C5_homomorphism (P : JubjubParams Point Fs Fr)
    (v1 v2 : Nat) (r1 r2 : Fs) :
    P.add ((ValueCommitment.mk v1 r1).cm P) ((ValueCommitment.mk v2 r2).cm P)
      = (ValueCommitment.mk (v1 + v2) (P.fsAdd r1 r2)).cm P := by
  unfold ValueCommitment.cm
  rw [P.fsOfNat_add, ← P.mul_fsAdd, ← P.mul_fsAdd]
  set A := P.mul (P.generator FixedGenerators.ValueCommitmentValue) (P.fsOfNat v1)
  set B := P.mul (P.generator FixedGenerators.ValueCommitmentRandomness) r1
  set C := P.mul (P.generator FixedGenerators.ValueCommitmentValue) (P.fsOfNat v2)
  set D := P.mul (P.generator FixedGenerators.ValueCommitmentRandomness) r2
  calc P.add (P.add A B) (P.add C D)
      = P.add A (P.add B (P.add C D)) := P.add_assoc A B (P.add C D)
    _ = P.add A (P.add (P.add B C) D) := by rw [P.add_assoc B C D]
    _ = P.add A (P.add (P.add C B) D) := by rw [P.add_comm B C]
    _ = P.add A (P.add C (P.add B D)) := by rw [P.add_assoc C B D]
    _ = P.add (P.add A C) (P.add B D) := (P.add_assoc A C (P.add B D)).symm

/-- C6: for every value commitment, `cm` is exactly
`value · G_value + randomness · G_vc_rand` with the 64-bit value used
directly as the integer scalar multiplier and the randomness a full
scalar; the computation is total. -/
theorem claim_C6_vc_formula (P : JubjubParams Point Fs Fr)
    (vc : ValueCommitment Fs) :
    vc.cm P = specValueCommit P vc.value vc.randomness := rfl

/-- C7: `into_payment_address` is absent exactly when hash-to-curve of
the diversifier bytes under the diversification tag is undefined, and in
that case it returns the absence without panicking; when `g_d` is defined
the result is the address with `pk_d = g_d · ivk`.  The same absence
condition drives `create_note`: it is `none` exactly when recomputing
`g_d` from the address diversifier fails. -/
theorem claim_C7_absence (P : JubjubParams Point Fs Fr) (vk : ViewingKey Point)
    (d : Diversifier) (a : PaymentAddress Point) (v : Nat) (r : Fs) :
    (vk.into_payment_address d P = Except.ok none ↔
      P.groupHash d.bytes KEY_DIVERSIFICATION_PERSONALIZATION = none) ∧
    (∀ g i, P.groupHash d.bytes KEY_DIVERSIFICATION_PERSONALIZATION = some g →
      vk.ivk P = Except.ok i →
      vk.into_payment_address d P =
        Except.ok (some { pk_d := P.mul g i, diversifier := d })) ∧
    (a.create_note v r P = none ↔ a.diversifier.g_d P = none) := by
  refine ⟨?_, ?_, ?_⟩
  · unfold ViewingKey.into_payment_address Diversifier.g_d
    cases hg : P.groupHash d.bytes KEY_DIVERSIFICATION_PERSONALIZATION with
    | none => simp
    | some g =>
      cases hivk : vk.ivk P with
      | error e => simp [hivk]
      | ok i => simp [hivk]
  · intro g i hg hivk
    unfold ViewingKey.into_payment_address Diversifier.g_d
    rw [hg, hivk]
  · unfold PaymentAddress.create_note PaymentAddress.g_d
    cases hg : Diversifier.g_d a.diversifier P with
    | none => simp
    | some g => simp

/-- Witness for C7 at a concrete input: with the test parameters, whose
hash-to-curve is defined on the test diversifier, the derived address
carries `pk_d = g_d · ivk`. -/
theorem claim_C7_absence_witness :
    testViewingKey.into_payment_address testDiversifier testParams =
      Except.ok (some
        { pk_d := testParams.mul 1 (testParams.fsOfNat (beVal
            (maskFirstByte (testParams.blake2s CRH_IVK_PERSONALIZATION
              (testParams.write testViewingKey.ak ++
                testParams.write testViewingKey.rk))))),
          diversifier := testDiversifier }) :=
  (claim_C7_absence testParams testViewingKey testDiversifier testAddress 0 0).2.1
    1 _ rfl rfl

/-- C8: for every note, `cm` returns exactly the base-field x-coordinate
of the full commitment point, and nothing else. -/
theorem claim_C8_cm_x_coordinate (P : JubjubParams Point Fs Fr)
    (n : Note Point Fs) :
    n.cm P = Except.ok (P.intoXY (specCmFullPoint P n)).1 ∧
    (∀ p, n.cm_full_point P = Except.ok p →
      n.cm P = Except.ok (P.intoXY p).1) := by
  have hfull : ∀ p, n.cm_full_point P = Except.ok p →
      n.cm P = Except.ok (P.intoXY p).1 := by
    intro p hp
    unfold Note.cm
    rw [hp]
  exact ⟨hfull _ (cm_full_point_eq_spec P n), hfull⟩

/-- Witness for C8 at a concrete input: the concrete note commitment over
the test parameters is the x-coordinate of its concrete full point. -/
theorem claim_C8_cm_x_coordinate_witness :
    testNote.cm testParams = Except.ok 8 :=
  (claim_C8_cm_x_coordinate testParams testNote).2 8 rfl

/-- C9: `into_viewing_key` is total, passes `ak` through unchanged, and
sets `rk = rsk · G_proof_gen`. -/
theorem claim_C9_into_viewing_key (P : JubjubParams Point Fs Fr)
    (k : ProofGenerationKey Point Fs) :
    (k.into_viewing_key P).ak = k.ak ∧
    (k.into_viewing_key P).rk =
      P.mul (P.generator FixedGenerators.ProofGenerationKey) k.rsk :=
  ⟨rfl, rfl⟩

/-- C10: whenever `into_payment_address` returns an address, its
diversifier is the argument verbatim; whenever `create_note` returns a
note, the note carries the value, the randomness and the address's
stored `pk_d` verbatim, with no consistency check between `pk_d` and the
recomputed `g_d`. -/
theorem claim_C10_frame (P : JubjubParams Point Fs Fr) (vk : ViewingKey Point)
    (d : Diversifier) (addr a : PaymentAddress Point) (v : Nat) (r : Fs)
    (n : Note Point Fs) :
    (vk.into_payment_address d P = Except.ok (some addr) →
      addr.diversifier = d) ∧
    (a.create_note v r P = some n →
      n.value = v ∧ n.r = r ∧ n.pk_d = a.pk_d) := by
  constructor
  · intro h
    unfold ViewingKey.into_payment_address at h
    cases hg : Diversifier.g_d d P with
    | none => rw [hg] at h; simp at h
    | some g =>
      rw [hg] at h
      cases hivk : vk.ivk P with
      | error e => rw [hivk] at h; simp at h
      | ok i =>
        rw [hivk] at h
        have h2 : ({ pk_d := P.mul g i, diversifier := d } :
            PaymentAddress Point) = addr := by
          simpa using h
        exact (congrArg PaymentAddress.diversifier h2).symm
  · intro h
    unfold PaymentAddress.create_note PaymentAddress.g_d at h
    cases hg : Diversifier.g_d a.diversifier P with
    | none => rw [hg] at h; simp at h
    | some g =>
      rw [hg] at h
      have h2 : ({ value := v, g_d := g, pk_d := a.pk_d, r := r } :
          Note Point Fs) = n := by
        simpa using h
      refine ⟨?_, ?_, ?_⟩ <;> rw [← h2]

/-- Witness for C10 at a concrete input: the note created from the test
address with value `5` and randomness `9` carries them verbatim,
together with the stored `pk_d`. -/
theorem claim_C10_frame_witness :
    testCreatedNote.value = 5 ∧ testCreatedNote.r = 9 ∧
      testCreatedNote.pk_d = testAddress.pk_d :=
  (claim_C10_frame testParams testViewingKey testDiversifier testAddress
    testAddress 5 9 testCreatedNote).2 rfl
